import Mathlib

/-
  Verification of the TSDB storage engine core (tsdb.c main module and
  tsdbFile.c) against its natural-language specification.

  The C sources are shallowly embedded: each C function that a claim
  depends on is translated into a pure Lean function over explicit state.
  Machine integers are modelled as Int; the few places where the int32
  range matters are stated as explicit hypotheses.  Constants and struct
  layouts that live in headers absent from the repository snapshot
  (tsdb.h, tsdbFile.h, tsdbCache.h, tsdbMeta.h) are modelled from the
  specification and marked as such in their doc comments.
-/

namespace Tsdb

/-! ## Configuration constants, from the defines at the top of the main module -/

def TSDB_PRECISION_MILLI : Int := 0
def TSDB_PRECISION_MICRO : Int := 1
def TSDB_PRECISION_NANO : Int := 2
def TSDB_DEFAULT_PRECISION : Int := TSDB_PRECISION_MILLI
def TSDB_MIN_TABLES : Int := 10
def TSDB_MAX_TABLES : Int := 100000
def TSDB_DEFAULT_TABLES : Int := 1000
def TSDB_DEFAULT_DAYS_PER_FILE : Int := 10
def TSDB_MIN_DAYS_PER_FILE : Int := 1
def TSDB_MAX_DAYS_PER_FILE : Int := 60
def TSDB_DEFAULT_MIN_ROW_FBLOCK : Int := 100
def TSDB_MIN_MIN_ROW_FBLOCK : Int := 10
def TSDB_MAX_MIN_ROW_FBLOCK : Int := 1000
def TSDB_DEFAULT_MAX_ROW_FBLOCK : Int := 4096
def TSDB_MIN_MAX_ROW_FBLOCK : Int := 200
def TSDB_MAX_MAX_ROW_FBLOCK : Int := 10000
def TSDB_DEFAULT_KEEP : Int := 3650
def TSDB_MIN_KEEP : Int := 1

/-- INT_MAX, the value of TSDB_MAX_KEEP in the source. -/
def TSDB_MAX_KEEP : Int := 2147483647

def TSDB_DEFAULT_CACHE_SIZE : Int := 16 * 1024 * 1024
def TSDB_MIN_CACHE_SIZE : Int := 4 * 1024 * 1024
def TSDB_MAX_CACHE_SIZE : Int := 1024 * 1024 * 1024

/-- The macro IS_VALID_PRECISION from the source. -/
def IS_VALID_PRECISION (precision : Int) : Prop :=
  TSDB_PRECISION_MILLI ≤ precision ∧ precision ≤ TSDB_PRECISION_NANO

instance (precision : Int) : Decidable (IS_VALID_PRECISION precision) := by
  unfold IS_VALID_PRECISION; infer_instance

/-- The STsdbCfg structure from the public header, field for field.
    All integer fields are int32 in C except maxCacheSize which is int64. -/
structure STsdbCfg where
  precision : Int
  tsdbId : Int
  maxTables : Int
  daysPerFile : Int
  minRowsPerFileBlock : Int
  maxRowsPerFileBlock : Int
  keep : Int
  maxCacheSize : Int
deriving Repr, DecidableEq

/-! ### tsdbCheckAndSetDefaultCfg, translated check by check in source order.
    The C function mutates the config in place and returns -1 at the first
    failing check; we model it as an Option-valued function where none is
    the rejecting return -1 and some is the fully substituted config. -/

def checkPrecision (c : STsdbCfg) : Option STsdbCfg :=
  if c.precision = -1 then some { c with precision := TSDB_DEFAULT_PRECISION }
  else if IS_VALID_PRECISION c.precision then some c else none

def checkTsdbId (c : STsdbCfg) : Option STsdbCfg :=
  if c.tsdbId < 0 then none else some c

def checkMaxTables (c : STsdbCfg) : Option STsdbCfg :=
  if c.maxTables = -1 then some { c with maxTables := TSDB_DEFAULT_TABLES }
  else if c.maxTables < TSDB_MIN_TABLES ∨ c.maxTables > TSDB_MAX_TABLES then none else some c

def checkDaysPerFile (c : STsdbCfg) : Option STsdbCfg :=
  if c.daysPerFile = -1 then some { c with daysPerFile := TSDB_DEFAULT_DAYS_PER_FILE }
  else if c.daysPerFile < TSDB_MIN_DAYS_PER_FILE ∨ c.daysPerFile > TSDB_MAX_DAYS_PER_FILE then none
  else some c

def checkMinRows (c : STsdbCfg) : Option STsdbCfg :=
  if c.minRowsPerFileBlock = -1 then some { c with minRowsPerFileBlock := TSDB_DEFAULT_MIN_ROW_FBLOCK }
  else if c.minRowsPerFileBlock < TSDB_MIN_MIN_ROW_FBLOCK ∨
          c.minRowsPerFileBlock > TSDB_MAX_MIN_ROW_FBLOCK then none
  else some c

def checkMaxRows (c : STsdbCfg) : Option STsdbCfg :=
  if c.maxRowsPerFileBlock = -1 then some { c with maxRowsPerFileBlock := TSDB_DEFAULT_MAX_ROW_FBLOCK }
  else if c.maxRowsPerFileBlock < TSDB_MIN_MAX_ROW_FBLOCK ∨
          c.maxRowsPerFileBlock > TSDB_MAX_MAX_ROW_FBLOCK then none
  else some c

def checkMinLeMaxRows (c : STsdbCfg) : Option STsdbCfg :=
  if c.minRowsPerFileBlock > c.maxRowsPerFileBlock then none else some c

def checkKeep (c : STsdbCfg) : Option STsdbCfg :=
  if c.keep = -1 then some { c with keep := TSDB_DEFAULT_KEEP }
  else if c.keep < TSDB_MIN_KEEP ∨ c.keep > TSDB_MAX_KEEP then none else some c

def checkMaxCacheSize (c : STsdbCfg) : Option STsdbCfg :=
  if c.maxCacheSize = -1 then some { c with maxCacheSize := TSDB_DEFAULT_CACHE_SIZE }
  else if c.maxCacheSize < TSDB_MIN_CACHE_SIZE ∨ c.maxCacheSize > TSDB_MAX_CACHE_SIZE then none
  else some c

/-- tsdbCheckAndSetDefaultCfg, the exact chain of checks of the source in
    source order: precision, tsdbId, maxTables, daysPerFile,
    minRowsPerFileBlock, maxRowsPerFileBlock, the cross check
    minRowsPerFileBlock is at most maxRowsPerFileBlock (performed after the
    defaults of both were substituted), keep, maxCacheSize. -/
def tsdbCheckAndSetDefaultCfg (c : STsdbCfg) : Option STsdbCfg :=
  (checkPrecision c).bind fun c =>
  (checkTsdbId c).bind fun c =>
  (checkMaxTables c).bind fun c =>
  (checkDaysPerFile c).bind fun c =>
  (checkMinRows c).bind fun c =>
  (checkMaxRows c).bind fun c =>
  (checkMinLeMaxRows c).bind fun c =>
  (checkKeep c).bind fun c =>
  checkMaxCacheSize c

/-- The configuration with the documented default substituted for every
    field holding the sentinel -1 and all other fields kept.  This is what
    the in-place mutations of tsdbCheckAndSetDefaultCfg amount to on the
    accepting path. -/
def substDefaults (c : STsdbCfg) : STsdbCfg :=
  { precision := if c.precision = -1 then TSDB_DEFAULT_PRECISION else c.precision
    tsdbId := c.tsdbId
    maxTables := if c.maxTables = -1 then TSDB_DEFAULT_TABLES else c.maxTables
    daysPerFile := if c.daysPerFile = -1 then TSDB_DEFAULT_DAYS_PER_FILE else c.daysPerFile
    minRowsPerFileBlock :=
      if c.minRowsPerFileBlock = -1 then TSDB_DEFAULT_MIN_ROW_FBLOCK else c.minRowsPerFileBlock
    maxRowsPerFileBlock :=
      if c.maxRowsPerFileBlock = -1 then TSDB_DEFAULT_MAX_ROW_FBLOCK else c.maxRowsPerFileBlock
    keep := if c.keep = -1 then TSDB_DEFAULT_KEEP else c.keep
    maxCacheSize := if c.maxCacheSize = -1 then TSDB_DEFAULT_CACHE_SIZE else c.maxCacheSize }

/-- The acceptance condition claimed for the validator: each defaultable
    field is either the sentinel -1 or within its documented bounds, the
    tsdbId is nonnegative, and after default substitution the minimum rows
    per file block does not exceed the maximum. -/
def cfgAcceptable (c : STsdbCfg) : Prop :=
  (c.precision = -1 ∨ IS_VALID_PRECISION c.precision) ∧
  0 ≤ c.tsdbId ∧
  (c.maxTables = -1 ∨ (TSDB_MIN_TABLES ≤ c.maxTables ∧ c.maxTables ≤ TSDB_MAX_TABLES)) ∧
  (c.daysPerFile = -1 ∨ (TSDB_MIN_DAYS_PER_FILE ≤ c.daysPerFile ∧
      c.daysPerFile ≤ TSDB_MAX_DAYS_PER_FILE)) ∧
  (c.minRowsPerFileBlock = -1 ∨ (TSDB_MIN_MIN_ROW_FBLOCK ≤ c.minRowsPerFileBlock ∧
      c.minRowsPerFileBlock ≤ TSDB_MAX_MIN_ROW_FBLOCK)) ∧
  (c.maxRowsPerFileBlock = -1 ∨ (TSDB_MIN_MAX_ROW_FBLOCK ≤ c.maxRowsPerFileBlock ∧
      c.maxRowsPerFileBlock ≤ TSDB_MAX_MAX_ROW_FBLOCK)) ∧
  (substDefaults c).minRowsPerFileBlock ≤ (substDefaults c).maxRowsPerFileBlock ∧
  (c.keep = -1 ∨ TSDB_MIN_KEEP ≤ c.keep) ∧
  (c.maxCacheSize = -1 ∨ (TSDB_MIN_CACHE_SIZE ≤ c.maxCacheSize ∧
      c.maxCacheSize ≤ TSDB_MAX_CACHE_SIZE))

instance : DecidablePred cfgAcceptable := fun c => by
  unfold cfgAcceptable; infer_instance

@[simp] lemma STsdbCfg_eta (c : STsdbCfg) :
    (⟨c.precision, c.tsdbId, c.maxTables, c.daysPerFile, c.minRowsPerFileBlock,
      c.maxRowsPerFileBlock, c.keep, c.maxCacheSize⟩ : STsdbCfg) = c := rfl

/-! The in-place default substitution each check performs, one helper per field. -/

def updPrecision (c : STsdbCfg) : STsdbCfg :=
  { c with precision := if c.precision = -1 then TSDB_DEFAULT_PRECISION else c.precision }

def updMaxTables (c : STsdbCfg) : STsdbCfg :=
  { c with maxTables := if c.maxTables = -1 then TSDB_DEFAULT_TABLES else c.maxTables }

def updDaysPerFile (c : STsdbCfg) : STsdbCfg :=
  { c with daysPerFile := if c.daysPerFile = -1 then TSDB_DEFAULT_DAYS_PER_FILE else c.daysPerFile }

def updMinRows (c : STsdbCfg) : STsdbCfg :=
  { c with minRowsPerFileBlock :=
      if c.minRowsPerFileBlock = -1 then TSDB_DEFAULT_MIN_ROW_FBLOCK else c.minRowsPerFileBlock }

def updMaxRows (c : STsdbCfg) : STsdbCfg :=
  { c with maxRowsPerFileBlock :=
      if c.maxRowsPerFileBlock = -1 then TSDB_DEFAULT_MAX_ROW_FBLOCK else c.maxRowsPerFileBlock }

def updKeep (c : STsdbCfg) : STsdbCfg :=
  { c with keep := if c.keep = -1 then TSDB_DEFAULT_KEEP else c.keep }

def updMaxCacheSize (c : STsdbCfg) : STsdbCfg :=
  { c with maxCacheSize := if c.maxCacheSize = -1 then TSDB_DEFAULT_CACHE_SIZE else c.maxCacheSize }

lemma substDefaults_comp (c : STsdbCfg) :
    updMaxCacheSize (updKeep (updMaxRows (updMinRows (updDaysPerFile
        (updMaxTables (updPrecision c)))))) = substDefaults c := rfl

lemma checkPrecision_eq_some (c c2 : STsdbCfg) :
    checkPrecision c = some c2 ↔
      ((c.precision = -1 ∨ IS_VALID_PRECISION c.precision) ∧ c2 = updPrecision c) := by
  unfold checkPrecision updPrecision
  split_ifs with h1 h2 <;> simp_all [eq_comm]

lemma checkTsdbId_eq_some (c c2 : STsdbCfg) :
    checkTsdbId c = some c2 ↔ (0 ≤ c.tsdbId ∧ c2 = c) := by
  unfold checkTsdbId
  split_ifs with h1 <;> simp_all [eq_comm] <;> omega

lemma checkMaxTables_eq_some (c c2 : STsdbCfg) :
    checkMaxTables c = some c2 ↔
      ((c.maxTables = -1 ∨ (TSDB_MIN_TABLES ≤ c.maxTables ∧ c.maxTables ≤ TSDB_MAX_TABLES)) ∧
        c2 = updMaxTables c) := by
  unfold checkMaxTables updMaxTables
  split_ifs with h1 h2 <;> simp_all [eq_comm, TSDB_MIN_TABLES, TSDB_MAX_TABLES] <;> omega

lemma checkDaysPerFile_eq_some (c c2 : STsdbCfg) :
    checkDaysPerFile c = some c2 ↔
      ((c.daysPerFile = -1 ∨ (TSDB_MIN_DAYS_PER_FILE ≤ c.daysPerFile ∧
          c.daysPerFile ≤ TSDB_MAX_DAYS_PER_FILE)) ∧
        c2 = updDaysPerFile c) := by
  unfold checkDaysPerFile updDaysPerFile
  split_ifs with h1 h2 <;>
    simp_all [eq_comm, TSDB_MIN_DAYS_PER_FILE, TSDB_MAX_DAYS_PER_FILE] <;> omega

lemma checkMinRows_eq_some (c c2 : STsdbCfg) :
    checkMinRows c = some c2 ↔
      ((c.minRowsPerFileBlock = -1 ∨ (TSDB_MIN_MIN_ROW_FBLOCK ≤ c.minRowsPerFileBlock ∧
          c.minRowsPerFileBlock ≤ TSDB_MAX_MIN_ROW_FBLOCK)) ∧
        c2 = updMinRows c) := by
  unfold checkMinRows updMinRows
  split_ifs with h1 h2 <;>
    simp_all [eq_comm, TSDB_MIN_MIN_ROW_FBLOCK, TSDB_MAX_MIN_ROW_FBLOCK] <;> omega

lemma checkMaxRows_eq_some (c c2 : STsdbCfg) :
    checkMaxRows c = some c2 ↔
      ((c.maxRowsPerFileBlock = -1 ∨ (TSDB_MIN_MAX_ROW_FBLOCK ≤ c.maxRowsPerFileBlock ∧
          c.maxRowsPerFileBlock ≤ TSDB_MAX_MAX_ROW_FBLOCK)) ∧
        c2 = updMaxRows c) := by
  unfold checkMaxRows updMaxRows
  split_ifs with h1 h2 <;>
    simp_all [eq_comm, TSDB_MIN_MAX_ROW_FBLOCK, TSDB_MAX_MAX_ROW_FBLOCK] <;> omega

lemma checkMinLeMaxRows_eq_some (c c2 : STsdbCfg) :
    checkMinLeMaxRows c = some c2 ↔
      (c.minRowsPerFileBlock ≤ c.maxRowsPerFileBlock ∧ c2 = c) := by
  unfold checkMinLeMaxRows
  split_ifs with h1 <;> simp_all [eq_comm] <;> omega

lemma checkKeep_eq_some (c c2 : STsdbCfg) :
    checkKeep c = some c2 ↔
      ((c.keep = -1 ∨ (TSDB_MIN_KEEP ≤ c.keep ∧ c.keep ≤ TSDB_MAX_KEEP)) ∧
        c2 = updKeep c) := by
  unfold checkKeep updKeep
  split_ifs with h1 h2 <;> simp_all [eq_comm, TSDB_MIN_KEEP, TSDB_MAX_KEEP] <;> omega

lemma checkMaxCacheSize_eq_some (c c2 : STsdbCfg) :
    checkMaxCacheSize c = some c2 ↔
      ((c.maxCacheSize = -1 ∨ (TSDB_MIN_CACHE_SIZE ≤ c.maxCacheSize ∧
          c.maxCacheSize ≤ TSDB_MAX_CACHE_SIZE)) ∧
        c2 = updMaxCacheSize c) := by
  unfold checkMaxCacheSize updMaxCacheSize
  split_ifs with h1 h2 <;> simp_all [eq_comm, TSDB_MIN_CACHE_SIZE, TSDB_MAX_CACHE_SIZE] <;> omega

lemma cfgAcceptable_of_some (c c2 : STsdbCfg) (h : tsdbCheckAndSetDefaultCfg c = some c2) :
    cfgAcceptable c ∧ c2 = substDefaults c := by
  unfold tsdbCheckAndSetDefaultCfg at h
  obtain ⟨d1, h1, h⟩ := Option.bind_eq_some.mp h
  obtain ⟨d2, h2, h⟩ := Option.bind_eq_some.mp h
  obtain ⟨d3, h3, h⟩ := Option.bind_eq_some.mp h
  obtain ⟨d4, h4, h⟩ := Option.bind_eq_some.mp h
  obtain ⟨d5, h5, h⟩ := Option.bind_eq_some.mp h
  obtain ⟨d6, h6, h⟩ := Option.bind_eq_some.mp h
  obtain ⟨d7, h7, h⟩ := Option.bind_eq_some.mp h
  obtain ⟨d8, h8, h⟩ := Option.bind_eq_some.mp h
  obtain ⟨a1, e1⟩ := (checkPrecision_eq_some _ _).mp h1; subst e1
  obtain ⟨a2, e2⟩ := (checkTsdbId_eq_some _ _).mp h2; subst e2
  obtain ⟨a3, e3⟩ := (checkMaxTables_eq_some _ _).mp h3; subst e3
  obtain ⟨a4, e4⟩ := (checkDaysPerFile_eq_some _ _).mp h4; subst e4
  obtain ⟨a5, e5⟩ := (checkMinRows_eq_some _ _).mp h5; subst e5
  obtain ⟨a6, e6⟩ := (checkMaxRows_eq_some _ _).mp h6; subst e6
  obtain ⟨a7, e7⟩ := (checkMinLeMaxRows_eq_some _ _).mp h7; subst e7
  obtain ⟨a8, e8⟩ := (checkKeep_eq_some _ _).mp h8; subst e8
  obtain ⟨a9, e9⟩ := (checkMaxCacheSize_eq_some _ _).mp h; subst e9
  refine ⟨⟨a1, a2, a3, a4, a5, a6, ?_, ?_, a9⟩, ?_⟩
  · exact a7
  · exact a8.imp id And.left
  · exact substDefaults_comp c

/-- C6: tsdbCheckAndSetDefaultCfg accepts a configuration exactly when every
    defaultable field is the sentinel -1 or within its documented bounds,
    tsdbId is nonnegative, and after substituting the documented defaults
    the minimum rows per file block does not exceed the maximum; it rejects
    (returns -1, modelled as none) otherwise, and on acceptance every
    sentinel field holds its documented default while every other field is
    kept.  The hypothesis bounds keep by INT_MAX, as the int32 type of the
    field does in C. -/
theorem tsdbCheckAndSetDefaultCfg_correct (c : STsdbCfg) (hkeep : c.keep ≤ TSDB_MAX_KEEP) :
    tsdbCheckAndSetDefaultCfg c =
      if cfgAcceptable c then some (substDefaults c) else none := by
  by_cases hacc : cfgAcceptable c
  · rw [if_pos hacc]
    obtain ⟨a1, a2, a3, a4, a5, a6, a7, a8, a9⟩ := hacc
    have e1 : checkPrecision c = some (updPrecision c) :=
      (checkPrecision_eq_some _ _).mpr ⟨a1, rfl⟩
    have e2 : checkTsdbId (updPrecision c) = some (updPrecision c) :=
      (checkTsdbId_eq_some _ _).mpr ⟨a2, rfl⟩
    have e3 : checkMaxTables (updPrecision c) = some (updMaxTables (updPrecision c)) :=
      (checkMaxTables_eq_some _ _).mpr ⟨a3, rfl⟩
    have e4 : checkDaysPerFile (updMaxTables (updPrecision c)) =
        some (updDaysPerFile (updMaxTables (updPrecision c))) :=
      (checkDaysPerFile_eq_some _ _).mpr ⟨a4, rfl⟩
    have e5 : checkMinRows (updDaysPerFile (updMaxTables (updPrecision c))) =
        some (updMinRows (updDaysPerFile (updMaxTables (updPrecision c)))) :=
      (checkMinRows_eq_some _ _).mpr ⟨a5, rfl⟩
    have e6 : checkMaxRows (updMinRows (updDaysPerFile (updMaxTables (updPrecision c)))) =
        some (updMaxRows (updMinRows (updDaysPerFile (updMaxTables (updPrecision c))))) :=
      (checkMaxRows_eq_some _ _).mpr ⟨a6, rfl⟩
    have e7 : checkMinLeMaxRows
        (updMaxRows (updMinRows (updDaysPerFile (updMaxTables (updPrecision c))))) =
        some (updMaxRows (updMinRows (updDaysPerFile (updMaxTables (updPrecision c))))) :=
      (checkMinLeMaxRows_eq_some _ _).mpr ⟨a7, rfl⟩
    have a8x : c.keep = -1 ∨ (TSDB_MIN_KEEP ≤ c.keep ∧ c.keep ≤ TSDB_MAX_KEEP) :=
      a8.imp id (fun hx => ⟨hx, hkeep⟩)
    have e8 : checkKeep
        (updMaxRows (updMinRows (updDaysPerFile (updMaxTables (updPrecision c))))) =
        some (updKeep (updMaxRows (updMinRows (updDaysPerFile
          (updMaxTables (updPrecision c)))))) :=
      (checkKeep_eq_some _ _).mpr ⟨a8x, rfl⟩
    have e9 : checkMaxCacheSize (updKeep (updMaxRows (updMinRows (updDaysPerFile
        (updMaxTables (updPrecision c)))))) =
        some (updMaxCacheSize (updKeep (updMaxRows (updMinRows (updDaysPerFile
          (updMaxTables (updPrecision c))))))) :=
      (checkMaxCacheSize_eq_some _ _).mpr ⟨a9, rfl⟩
    unfold tsdbCheckAndSetDefaultCfg
    rw [e1]; simp only [Option.some_bind]
    rw [e2]; simp only [Option.some_bind]
    rw [e3]; simp only [Option.some_bind]
    rw [e4]; simp only [Option.some_bind]
    rw [e5]; simp only [Option.some_bind]
    rw [e6]; simp only [Option.some_bind]
    rw [e7]; simp only [Option.some_bind]
    rw [e8]; simp only [Option.some_bind]
    rw [e9, substDefaults_comp]
  · rw [if_neg hacc]
    cases h : tsdbCheckAndSetDefaultCfg c with
    | none => rfl
    | some c2 => exact absurd (cfgAcceptable_of_some c c2 h).1 hacc

/-- Witness for C6 at the all-defaults configuration. -/
theorem tsdbCheckAndSetDefaultCfg_correct_witness :
    tsdbCheckAndSetDefaultCfg ⟨-1, 0, -1, -1, -1, -1, -1, -1⟩ =
      if cfgAcceptable ⟨-1, 0, -1, -1, -1, -1, -1, -1⟩
      then some (substDefaults ⟨-1, 0, -1, -1, -1, -1, -1, -1⟩) else none :=
  tsdbCheckAndSetDefaultCfg_correct ⟨-1, 0, -1, -1, -1, -1, -1, -1⟩ (by decide)

/-! ## File partition key ranges (tsdbFile.c) -/

/-- Modelled from the spec: the external array tsMsPerDay (its header is not
    in the repository snapshot) holds the number of time units per day for
    each precision, milliseconds, microseconds and nanoseconds per day. -/
def tsMsPerDay (precision : Int) : Int :=
  if precision = TSDB_PRECISION_MILLI then 86400000
  else if precision = TSDB_PRECISION_MICRO then 86400000000
  else if precision = TSDB_PRECISION_NANO then 86400000000000
  else 0

/-- tsdbGetKeyRangeOfFileId from tsdbFile.c: minKey is
    fileId times daysPerFile times tsMsPerDay at the precision, and maxKey
    is minKey plus daysPerFile times tsMsPerDay at the precision, minus one.
    The C out parameters are returned as a pair (minKey, maxKey). -/
def tsdbGetKeyRangeOfFileId (daysPerFile precision fileId : Int) : Int × Int :=
  let minKey := fileId * daysPerFile * tsMsPerDay precision
  (minKey, minKey + daysPerFile * tsMsPerDay precision - 1)

lemma tsMsPerDay_pos (precision : Int) (hp : IS_VALID_PRECISION precision) :
    0 < tsMsPerDay precision := by
  unfold IS_VALID_PRECISION TSDB_PRECISION_MILLI TSDB_PRECISION_NANO at hp
  unfold tsMsPerDay TSDB_PRECISION_MILLI TSDB_PRECISION_MICRO TSDB_PRECISION_NANO
  split_ifs <;> omega

/-- C8: for every daysPerFile at least one day, valid precision and fileId,
    the returned range is minKey equal to fileId times the partition span
    and maxKey equal to minKey plus the span minus one, and in exact integer
    arithmetic a timestamp t lies in the closed range exactly when the floor
    of t divided by the span equals fileId. -/
theorem tsdbGetKeyRangeOfFileId_correct (daysPerFile precision fileId : Int)
    (hd : TSDB_MIN_DAYS_PER_FILE ≤ daysPerFile) (hp : IS_VALID_PRECISION precision) :
    (tsdbGetKeyRangeOfFileId daysPerFile precision fileId).1 =
      fileId * (daysPerFile * tsMsPerDay precision) ∧
    (tsdbGetKeyRangeOfFileId daysPerFile precision fileId).2 =
      fileId * (daysPerFile * tsMsPerDay precision) + daysPerFile * tsMsPerDay precision - 1 ∧
    ∀ t : Int,
      ((tsdbGetKeyRangeOfFileId daysPerFile precision fileId).1 ≤ t ∧
        t ≤ (tsdbGetKeyRangeOfFileId daysPerFile precision fileId).2) ↔
      Int.fdiv t (daysPerFile * tsMsPerDay precision) = fileId := by
  have hms : 0 < tsMsPerDay precision := tsMsPerDay_pos precision hp
  have hdpos : 0 < daysPerFile := by
    unfold TSDB_MIN_DAYS_PER_FILE at hd; omega
  have hspan : 0 < daysPerFile * tsMsPerDay precision := mul_pos hdpos hms
  refine ⟨by unfold tsdbGetKeyRangeOfFileId; ring_nf,
          by unfold tsdbGetKeyRangeOfFileId; ring_nf, ?_⟩
  intro t
  unfold tsdbGetKeyRangeOfFileId
  simp only
  rw [Int.fdiv_eq_ediv _ hspan.le]
  constructor
  · rintro ⟨h1, h2⟩
    have hle : fileId ≤ t / (daysPerFile * tsMsPerDay precision) :=
      (Int.le_ediv_iff_mul_le hspan).mpr (by nlinarith)
    have hlt : t / (daysPerFile * tsMsPerDay precision) < fileId + 1 :=
      (Int.ediv_lt_iff_lt_mul hspan).mpr (by nlinarith)
    omega
  · intro h
    have h1 : fileId * (daysPerFile * tsMsPerDay precision) ≤ t :=
      (Int.le_ediv_iff_mul_le hspan).mp (le_of_eq h.symm)
    have h2 : t < (fileId + 1) * (daysPerFile * tsMsPerDay precision) :=
      (Int.ediv_lt_iff_lt_mul hspan).mp (by omega)
    constructor <;> nlinarith

/-- Witness for C8 with one day per file, millisecond precision, fileId 1. -/
theorem tsdbGetKeyRangeOfFileId_correct_witness :
    (tsdbGetKeyRangeOfFileId 1 0 1).1 = 1 * (1 * tsMsPerDay 0) ∧
    (tsdbGetKeyRangeOfFileId 1 0 1).2 = 1 * (1 * tsMsPerDay 0) + 1 * tsMsPerDay 0 - 1 ∧
    ∀ t : Int,
      ((tsdbGetKeyRangeOfFileId 1 0 1).1 ≤ t ∧ t ≤ (tsdbGetKeyRangeOfFileId 1 0 1).2) ↔
      Int.fdiv t (1 * tsMsPerDay 0) = 1 :=
  tsdbGetKeyRangeOfFileId_correct 1 0 1 (by decide) (by decide)

/-! ## Byte-level model of files and the file group directory (tsdbFile.c)

    Files are byte lists; the disk is an association list from file name to
    content.  Writes at an absolute offset (the C code only seeks with
    SEEK_SET before writing in the functions below) zero-fill any hole, as
    POSIX does.  File descriptors are left implicit: opening and closing do
    not change content, and every write below names its absolute offset. -/

abbrev Bytes := List Nat

/-- Modelled from the spec: TSDB_FILE_HEAD_SIZE, the fixed number of bytes
    every tsdb file reserves at its start (constant in the header file that
    is not part of the repository snapshot). -/
def TSDB_FILE_HEAD_SIZE : Nat := 512

/-- Overwrite of bs at absolute offset off, zero-filling a hole when the
    prior content is shorter than off. -/
def writeAt (content : Bytes) (off : Nat) (bs : Bytes) : Bytes :=
  let padded := content ++ List.replicate (off - content.length) 0
  padded.take off ++ bs ++ padded.drop (off + bs.length)

/-- Read of n bytes at absolute offset off; short when the file ends. -/
def readAt (content : Bytes) (off n : Nat) : Bytes := (content.drop off).take n

structure SFile where
  fname : String
  size : Nat
deriving Repr, DecidableEq

abbrev Disk := List (String × Bytes)

def diskLookup (d : Disk) (n : String) : Option Bytes :=
  (d.find? fun p => p.1 == n).map Prod.snd

def diskWrite (d : Disk) (n : String) (c : Bytes) : Disk :=
  match d with
  | [] => [(n, c)]
  | p :: rest => if p.1 == n then (n, c) :: rest else p :: diskWrite rest n c

/-- The SCompIdx per-table index record, fields as the spec lists them. -/
structure SCompIdx where
  offset : Nat
  len : Nat
  hasLast : Nat
  maxKey : Nat
  numOfSuperBlocks : Nat
  checksum : Nat
deriving Repr, DecidableEq

def zeroCompIdx : SCompIdx :=
  { offset := 0, len := 0, hasLast := 0, maxKey := 0, numOfSuperBlocks := 0, checksum := 0 }

/-- Modelled from the spec: a fixed-width on-disk layout for SCompIdx (the
    struct lives in the header file missing from the snapshot).  Four-byte
    offset, len, hasLast fields, an eight-byte maxKey, a four-byte
    numOfSuperBlocks and an eight-byte checksum, 32 bytes in all; all-zero
    bytes decode to the all-zero record. -/
def compIdxSize : Nat := 32

/-- Little-endian unsigned decoding of a byte list. -/
def decodeNat (bs : Bytes) : Nat := bs.foldr (fun b acc => b + 256 * acc) 0

def decodeCompIdx (bs : Bytes) : SCompIdx :=
  { offset := decodeNat (readAt bs 0 4)
    len := decodeNat (readAt bs 4 4)
    hasLast := decodeNat (readAt bs 8 4)
    maxKey := decodeNat (readAt bs 12 8)
    numOfSuperBlocks := decodeNat (readAt bs 20 4)
    checksum := decodeNat (readAt bs 24 8) }

def decodeCompIdxArr (maxTables : Nat) (bs : Bytes) : List SCompIdx :=
  (List.range maxTables).map fun i => decodeCompIdx (readAt bs (i * compIdxSize) compIdxSize)

/-- tsdbGetFileName: sprintf of dataDir, the letter f, the fileId and the suffix. -/
def tsdbGetFileName (dataDir : String) (fileId : Int) (suffix : String) : String :=
  dataDir ++ "/f" ++ toString fileId ++ suffix

/-- tsdbWriteFileHead: seek to offset 0 and write TSDB_FILE_HEAD_SIZE zero
    bytes (the C local array head is zero-initialized), growing size. -/
def tsdbWriteFileHead (content : Bytes) (pFile : SFile) : Bytes × SFile :=
  (writeAt content 0 (List.replicate TSDB_FILE_HEAD_SIZE 0),
    { pFile with size := pFile.size + TSDB_FILE_HEAD_SIZE })

/-- tsdbWriteHeadFileIdx: seek to TSDB_FILE_HEAD_SIZE and write a calloc-ed
    zero region of sizeof SCompIdx times maxTables bytes, growing size. -/
def tsdbWriteHeadFileIdx (content : Bytes) (pFile : SFile) (maxTables : Nat) : Bytes × SFile :=
  (writeAt content TSDB_FILE_HEAD_SIZE (List.replicate (compIdxSize * maxTables) 0),
    { pFile with size := pFile.size + compIdxSize * maxTables })

/-- tsdbCreateFile from tsdbFile.c.  Returns the C return value, the disk
    after the call and the output SFile record.  When the target name
    already exists (the access check) it returns -1 before opening anything.
    Otherwise the file is created empty, the SCompIdx region is written when
    writeHeader is set, then the file head is written.  The toClose flag of
    the C function only closes the descriptor and is dropped here. -/
def tsdbCreateFile (d : Disk) (dataDir : String) (fileId : Int) (suffix : String)
    (maxTables : Nat) (writeHeader : Bool) : Int × Disk × SFile :=
  let fname := tsdbGetFileName dataDir fileId suffix
  let pFile : SFile := { fname := fname, size := 0 }
  match diskLookup d fname with
  | some _ => (-1, d, pFile)
  | none =>
    let c0 : Bytes := []
    let r1 := if writeHeader then tsdbWriteHeadFileIdx c0 pFile maxTables else (c0, pFile)
    let r2 := tsdbWriteFileHead r1.1 r1.2
    (0, diskWrite d fname r2.1, r2.2)

structure SFileGroup where
  fileId : Int
  headF : SFile
  dataF : SFile
  lastF : SFile
deriving Repr, DecidableEq

structure STsdbFileH where
  maxFGroups : Nat
  fGroup : List SFileGroup
deriving Repr, DecidableEq

/-- tsdbSearchFGroup: the early exit on an empty directory or a fid outside
    the [first, last] fileId range, then bsearch over the array, which is
    kept sorted by fileId; on a sorted array bsearch finds exactly the
    element a linear scan finds. -/
def tsdbSearchFGroup (pFileH : STsdbFileH) (fid : Int) : Option SFileGroup :=
  match pFileH.fGroup.head?, pFileH.fGroup.getLast? with
  | some g0, some gn =>
    if fid < g0.fileId ∨ gn.fileId < fid then none
    else pFileH.fGroup.find? fun g => g.fileId == fid
  | _, _ => none

def fgInsert (g : SFileGroup) : List SFileGroup → List SFileGroup
  | [] => [g]
  | x :: xs => if g.fileId ≤ x.fileId then g :: x :: xs else x :: fgInsert g xs

/-- The qsort call on the group array, modelled as insertion sort on the
    fileId key; the array holds distinct fileIds so any comparison sort
    yields this result. -/
def sortFGroups : List SFileGroup → List SFileGroup
  | [] => []
  | x :: xs => fgInsert x (sortFGroups xs)

/-- tsdbCreateFGroup from tsdbFile.c: the capacity check comes first and
    returns -1 when the directory is full; then, only if fid is not present,
    the three files are created (head with the pre-zeroed index region) and
    the new group is appended and the array re-sorted by fileId. -/
def tsdbCreateFGroup (pFileH : STsdbFileH) (d : Disk) (dataDir : String) (fid : Int)
    (maxTables : Nat) : Int × STsdbFileH × Disk :=
  if pFileH.maxFGroups ≤ pFileH.fGroup.length then (-1, pFileH, d)
  else
    match tsdbSearchFGroup pFileH fid with
    | some _ => (0, pFileH, d)
    | none =>
      let r1 := tsdbCreateFile d dataDir fid ".head" maxTables true
      if r1.1 < 0 then (-1, pFileH, r1.2.1)
      else
        let r2 := tsdbCreateFile r1.2.1 dataDir fid ".data" maxTables false
        if r2.1 < 0 then (-1, pFileH, r2.2.1)
        else
          let r3 := tsdbCreateFile r2.2.1 dataDir fid ".last" maxTables false
          if r3.1 < 0 then (-1, pFileH, r3.2.1)
          else
            (0, { pFileH with fGroup := sortFGroups (pFileH.fGroup ++
                    [{ fileId := fid, headF := r1.2.2, dataF := r2.2.2, lastF := r3.2.2 }]) },
              r3.2.1)

/-- tsdbLoadCompIdx: seek the head file of the group to TSDB_FILE_HEAD_SIZE
    and read the SCompIdx array of maxTables entries.  The model reads the
    disk under the head file name; none models the failing lseek or read. -/
def tsdbLoadCompIdx (d : Disk) (pGroup : SFileGroup) (maxTables : Nat) :
    Option (List SCompIdx) :=
  match diskLookup d pGroup.headF.fname with
  | none => none
  | some c =>
    some (decodeCompIdxArr maxTables (readAt c TSDB_FILE_HEAD_SIZE (compIdxSize * maxTables)))

/-! ### Helper lemmas for the file model -/

lemma diskLookup_diskWrite_self (d : Disk) (n : String) (c : Bytes) :
    diskLookup (diskWrite d n c) n = some c := by
  induction d with
  | nil => simp [diskWrite, diskLookup]
  | cons p rest ih =>
    by_cases h : p.1 = n
    · simp [diskWrite, diskLookup, h]
    · simp only [diskWrite, beq_iff_eq, h, if_false]
      simpa [diskLookup, List.find?_cons, h] using ih

lemma diskLookup_diskWrite_other (d : Disk) (n m : String) (c : Bytes) (h : m ≠ n) :
    diskLookup (diskWrite d n c) m = diskLookup d m := by
  have hnm : (n == m) = false := beq_eq_false_iff_ne.mpr (Ne.symm h)
  induction d with
  | nil => simp [diskWrite, diskLookup, hnm]
  | cons p rest ih =>
    by_cases hp : p.1 = n
    · simp [diskWrite, diskLookup, List.find?_cons, hp, hnm]
    · simp only [diskWrite, beq_iff_eq, hp, if_false]
      by_cases hm : p.1 = m
      · simp [diskLookup, List.find?_cons, hm]
      · simpa [diskLookup, List.find?_cons, hm] using ih

lemma writeAt_nil (off : Nat) (bs : Bytes) :
    writeAt [] off bs = List.replicate off 0 ++ bs := by
  unfold writeAt
  have h1 : off - ([] : Bytes).length = off := by simp
  have h2 : off - (off + bs.length) = 0 := by omega
  simp [List.take_replicate, List.drop_replicate, h2]

lemma writeAt_replicate_zero (K off n : Nat) (h : off + n ≤ K) :
    writeAt (List.replicate K 0) off (List.replicate n 0) = List.replicate K 0 := by
  unfold writeAt
  have h1 : off - (List.replicate K (0 : Nat)).length = 0 := by simp; omega
  rw [h1]
  simp only [List.replicate_zero, List.append_nil, List.take_replicate, List.drop_replicate,
    List.length_replicate]
  rw [min_eq_left (by omega)]
  rw [← List.replicate_add, ← List.replicate_add]
  congr 1
  omega

lemma readAt_replicate (M off n : Nat) :
    readAt (List.replicate M (0 : Nat)) off n = List.replicate (min n (M - off)) 0 := by
  unfold readAt
  simp [List.drop_replicate, List.take_replicate]

lemma tsdbCreateFile_fresh_header (d : Disk) (dataDir : String) (fileId : Int)
    (maxTables : Nat)
    (h : diskLookup d (tsdbGetFileName dataDir fileId ".head") = none) :
    tsdbCreateFile d dataDir fileId ".head" maxTables true =
      (0, diskWrite d (tsdbGetFileName dataDir fileId ".head")
            (List.replicate (TSDB_FILE_HEAD_SIZE + compIdxSize * maxTables) 0),
        { fname := tsdbGetFileName dataDir fileId ".head",
          size := compIdxSize * maxTables + TSDB_FILE_HEAD_SIZE }) := by
  have hc1 : writeAt [] TSDB_FILE_HEAD_SIZE (List.replicate (compIdxSize * maxTables) 0) =
      List.replicate (TSDB_FILE_HEAD_SIZE + compIdxSize * maxTables) 0 := by
    rw [writeAt_nil, ← List.replicate_add]
  have hc2 : writeAt (List.replicate (TSDB_FILE_HEAD_SIZE + compIdxSize * maxTables) 0) 0
      (List.replicate TSDB_FILE_HEAD_SIZE 0) =
      List.replicate (TSDB_FILE_HEAD_SIZE + compIdxSize * maxTables) 0 :=
    writeAt_replicate_zero _ _ _ (by omega)
  simp [tsdbCreateFile, h, tsdbWriteHeadFileIdx, tsdbWriteFileHead, hc1, hc2]

lemma tsdbCreateFile_fresh_plain (d : Disk) (dataDir : String) (fileId : Int)
    (maxTables : Nat) (suffix : String)
    (h : diskLookup d (tsdbGetFileName dataDir fileId suffix) = none) :
    tsdbCreateFile d dataDir fileId suffix maxTables false =
      (0, diskWrite d (tsdbGetFileName dataDir fileId suffix)
            (List.replicate TSDB_FILE_HEAD_SIZE 0),
        { fname := tsdbGetFileName dataDir fileId suffix, size := TSDB_FILE_HEAD_SIZE }) := by
  have hc : writeAt [] 0 (List.replicate TSDB_FILE_HEAD_SIZE 0) =
      List.replicate TSDB_FILE_HEAD_SIZE 0 := by
    rw [writeAt_nil]; simp
  simp [tsdbCreateFile, h, tsdbWriteFileHead, hc]

/-- The fully fresh creation path of tsdbCreateFGroup: directory below
    capacity, fid absent, none of the three target files on disk. -/
lemma tsdbCreateFGroup_fresh (pFileH : STsdbFileH) (d : Disk) (dataDir : String)
    (fid : Int) (maxTables : Nat)
    (hcap : pFileH.fGroup.length < pFileH.maxFGroups)
    (habs : tsdbSearchFGroup pFileH fid = none)
    (hh : diskLookup d (tsdbGetFileName dataDir fid ".head") = none)
    (hd : diskLookup d (tsdbGetFileName dataDir fid ".data") = none)
    (hl : diskLookup d (tsdbGetFileName dataDir fid ".last") = none)
    (hne1 : tsdbGetFileName dataDir fid ".data" ≠ tsdbGetFileName dataDir fid ".head")
    (hne2 : tsdbGetFileName dataDir fid ".last" ≠ tsdbGetFileName dataDir fid ".head")
    (hne3 : tsdbGetFileName dataDir fid ".last" ≠ tsdbGetFileName dataDir fid ".data") :
    tsdbCreateFGroup pFileH d dataDir fid maxTables =
      (0,
        { pFileH with fGroup := sortFGroups (pFileH.fGroup ++
            [{ fileId := fid,
               headF := { fname := tsdbGetFileName dataDir fid ".head",
                          size := compIdxSize * maxTables + TSDB_FILE_HEAD_SIZE },
               dataF := { fname := tsdbGetFileName dataDir fid ".data",
                          size := TSDB_FILE_HEAD_SIZE },
               lastF := { fname := tsdbGetFileName dataDir fid ".last",
                          size := TSDB_FILE_HEAD_SIZE } }]) },
        diskWrite (diskWrite (diskWrite d
            (tsdbGetFileName dataDir fid ".head")
            (List.replicate (TSDB_FILE_HEAD_SIZE + compIdxSize * maxTables) 0))
            (tsdbGetFileName dataDir fid ".data") (List.replicate TSDB_FILE_HEAD_SIZE 0))
            (tsdbGetFileName dataDir fid ".last") (List.replicate TSDB_FILE_HEAD_SIZE 0)) := by
  have e1 := tsdbCreateFile_fresh_header d dataDir fid maxTables hh
  have hd1 : diskLookup (diskWrite d (tsdbGetFileName dataDir fid ".head")
      (List.replicate (TSDB_FILE_HEAD_SIZE + compIdxSize * maxTables) 0))
      (tsdbGetFileName dataDir fid ".data") = none := by
    rw [diskLookup_diskWrite_other _ _ _ _ hne1]; exact hd
  have e2 := tsdbCreateFile_fresh_plain _ dataDir fid maxTables ".data" hd1
  have hl1 : diskLookup (diskWrite (diskWrite d
      (tsdbGetFileName dataDir fid ".head")
      (List.replicate (TSDB_FILE_HEAD_SIZE + compIdxSize * maxTables) 0))
      (tsdbGetFileName dataDir fid ".data") (List.replicate TSDB_FILE_HEAD_SIZE 0))
      (tsdbGetFileName dataDir fid ".last") = none := by
    rw [diskLookup_diskWrite_other _ _ _ _ hne3, diskLookup_diskWrite_other _ _ _ _ hne2]
    exact hl
  have e3 := tsdbCreateFile_fresh_plain _ dataDir fid maxTables ".last" hl1
  unfold tsdbCreateFGroup
  rw [if_neg (by omega), habs]
  simp [e1, e2, e3]

lemma decodeNat_replicate_zero (k : Nat) : decodeNat (List.replicate k 0) = 0 := by
  induction k with
  | zero => rfl
  | succ k ih => simp [decodeNat, List.replicate_succ] at ih ⊢; exact ih

lemma decodeCompIdx_replicate_zero (k : Nat) :
    decodeCompIdx (List.replicate k 0) = zeroCompIdx := by
  unfold decodeCompIdx zeroCompIdx
  simp [readAt_replicate, decodeNat_replicate_zero]

lemma decodeCompIdxArr_zero (mt : Nat) :
    decodeCompIdxArr mt (List.replicate (compIdxSize * mt) 0) = List.replicate mt zeroCompIdx := by
  unfold decodeCompIdxArr
  refine List.eq_replicate.mpr ⟨by simp, ?_⟩
  intro b hb
  simp only [List.mem_map, List.mem_range] at hb
  obtain ⟨i, hi, rfl⟩ := hb
  rw [readAt_replicate]
  have hmin : min compIdxSize (compIdxSize * mt - i * compIdxSize) = compIdxSize := by
    have hle : compIdxSize * (i + 1) ≤ compIdxSize * mt := Nat.mul_le_mul_left _ hi
    simp only [compIdxSize] at hle ⊢
    omega
  rw [hmin, decodeCompIdx_replicate_zero]

/-! ### C10: creating over an existing file is refused without touching it -/

/-- C10: when the target file name already exists on disk, tsdbCreateFile
    returns -1 before opening, truncating or writing anything, so the disk
    is unchanged and the output file record is the zeroed one carrying only
    the name. -/
theorem tsdbCreateFile_no_overwrite (d : Disk) (dataDir : String) (fileId : Int)
    (suffix : String) (maxTables : Nat) (writeHeader : Bool)
    (h : (diskLookup d (tsdbGetFileName dataDir fileId suffix)).isSome) :
    tsdbCreateFile d dataDir fileId suffix maxTables writeHeader =
      (-1, d, { fname := tsdbGetFileName dataDir fileId suffix, size := 0 }) := by
  unfold tsdbCreateFile
  cases hx : diskLookup d (tsdbGetFileName dataDir fileId suffix) with
  | none => rw [hx] at h; simp at h
  | some c => simp [hx]

/-- Witness for C10: a disk already holding data/f1.head refuses the create. -/
theorem tsdbCreateFile_no_overwrite_witness :
    tsdbCreateFile [(tsdbGetFileName "data" 1 ".head", [7])] "data" 1 ".head" 5 true =
      (-1, [(tsdbGetFileName "data" 1 ".head", [7])],
        { fname := tsdbGetFileName "data" 1 ".head", size := 0 }) :=
  tsdbCreateFile_no_overwrite [(tsdbGetFileName "data" 1 ".head", [7])]
    "data" 1 ".head" 5 true (by rfl)

/-! ### C7: tsdbCreateFGroup, corrected -/

def fgDemoFile : SFile := { fname := "f0", size := 0 }

def fgDemoGroup : SFileGroup :=
  { fileId := 0, headF := fgDemoFile, dataF := fgDemoFile, lastF := fgDemoFile }

def fgDemoDir : STsdbFileH := { maxFGroups := 1, fGroup := [fgDemoGroup] }

/-- C7 counterexample: a directory at capacity that already contains the
    requested fid.  The claim says an already present fid returns success
    and that creation fails only when adding would exceed maxFGroups, yet
    the capacity check of the source runs first and rejects with -1 even
    though nothing would be added. -/
theorem tsdbCreateFGroup_full_present_cex :
    (tsdbSearchFGroup fgDemoDir 0).isSome ∧
    (tsdbCreateFGroup fgDemoDir [] "data" 0 5).1 = -1 := by
  constructor
  · rfl
  · rfl

/-- C7 amended: tsdbCreateFGroup checks capacity first and returns -1 when
    numOfFGroups has reached maxFGroups even if the fid is already present;
    below capacity it is idempotent, returning 0 and changing nothing when
    the fid is present, and when the fid is absent and none of the three
    files exists on disk it creates them, appends the group and re-sorts
    the array by fileId. -/
theorem tsdbCreateFGroup_cases (pFileH : STsdbFileH) (d : Disk) (dataDir : String)
    (fid : Int) (maxTables : Nat) :
    (pFileH.maxFGroups ≤ pFileH.fGroup.length →
      tsdbCreateFGroup pFileH d dataDir fid maxTables = (-1, pFileH, d)) ∧
    (pFileH.fGroup.length < pFileH.maxFGroups → (tsdbSearchFGroup pFileH fid).isSome →
      tsdbCreateFGroup pFileH d dataDir fid maxTables = (0, pFileH, d)) ∧
    (pFileH.fGroup.length < pFileH.maxFGroups → tsdbSearchFGroup pFileH fid = none →
      diskLookup d (tsdbGetFileName dataDir fid ".head") = none →
      diskLookup d (tsdbGetFileName dataDir fid ".data") = none →
      diskLookup d (tsdbGetFileName dataDir fid ".last") = none →
      tsdbGetFileName dataDir fid ".data" ≠ tsdbGetFileName dataDir fid ".head" →
      tsdbGetFileName dataDir fid ".last" ≠ tsdbGetFileName dataDir fid ".head" →
      tsdbGetFileName dataDir fid ".last" ≠ tsdbGetFileName dataDir fid ".data" →
      (tsdbCreateFGroup pFileH d dataDir fid maxTables).1 = 0 ∧
      (tsdbCreateFGroup pFileH d dataDir fid maxTables).2.1.fGroup =
        sortFGroups (pFileH.fGroup ++
          [{ fileId := fid,
             headF := { fname := tsdbGetFileName dataDir fid ".head",
                        size := compIdxSize * maxTables + TSDB_FILE_HEAD_SIZE },
             dataF := { fname := tsdbGetFileName dataDir fid ".data",
                        size := TSDB_FILE_HEAD_SIZE },
             lastF := { fname := tsdbGetFileName dataDir fid ".last",
                        size := TSDB_FILE_HEAD_SIZE } }])) := by
  refine ⟨?_, ?_, ?_⟩
  · intro hcap
    unfold tsdbCreateFGroup
    rw [if_pos hcap]
  · intro hcap hsome
    obtain ⟨g, hg⟩ := Option.isSome_iff_exists.mp hsome
    unfold tsdbCreateFGroup
    rw [if_neg (by omega), hg]
  · intro hcap habs hh hd hl hne1 hne2 hne3
    rw [tsdbCreateFGroup_fresh pFileH d dataDir fid maxTables hcap habs hh hd hl hne1 hne2 hne3]
    exact ⟨rfl, rfl⟩

def fgDemoDirRoomy : STsdbFileH := { maxFGroups := 2, fGroup := [fgDemoGroup] }

/-- Witness for C7 amended, exercising the full case and the present case. -/
theorem tsdbCreateFGroup_cases_witness :
    tsdbCreateFGroup { maxFGroups := 0, fGroup := [] } [] "data" 3 1 =
      (-1, { maxFGroups := 0, fGroup := [] }, []) ∧
    tsdbCreateFGroup fgDemoDirRoomy [] "data" 0 1 = (0, fgDemoDirRoomy, []) :=
  ⟨(tsdbCreateFGroup_cases { maxFGroups := 0, fGroup := [] } [] "data" 3 1).1 (by decide),
    (tsdbCreateFGroup_cases fgDemoDirRoomy [] "data" 0 1).2.1 (by decide) (by decide)⟩

/-! ### C9: create a fresh group, then load its SCompIdx array -/

/-- C9: a successful fresh tsdbCreateFGroup leaves the .head file as the
    TSDB_FILE_HEAD_SIZE header followed by a zeroed SCompIdx region of
    compIdxSize times maxTables bytes while .data and .last hold only the
    header, and tsdbLoadCompIdx on the fresh group returns maxTables
    all-zero SCompIdx entries, so every table reads offset 0, meaning no
    data in this partition. -/
theorem tsdbCreateFGroup_then_loadCompIdx (pFileH : STsdbFileH) (d : Disk)
    (dataDir : String) (fid : Int) (maxTables : Nat)
    (hcap : pFileH.fGroup.length < pFileH.maxFGroups)
    (habs : tsdbSearchFGroup pFileH fid = none)
    (hh : diskLookup d (tsdbGetFileName dataDir fid ".head") = none)
    (hd : diskLookup d (tsdbGetFileName dataDir fid ".data") = none)
    (hl : diskLookup d (tsdbGetFileName dataDir fid ".last") = none)
    (hne1 : tsdbGetFileName dataDir fid ".data" ≠ tsdbGetFileName dataDir fid ".head")
    (hne2 : tsdbGetFileName dataDir fid ".last" ≠ tsdbGetFileName dataDir fid ".head")
    (hne3 : tsdbGetFileName dataDir fid ".last" ≠ tsdbGetFileName dataDir fid ".data") :
    (tsdbCreateFGroup pFileH d dataDir fid maxTables).1 = 0 ∧
    diskLookup (tsdbCreateFGroup pFileH d dataDir fid maxTables).2.2
        (tsdbGetFileName dataDir fid ".head") =
      some (List.replicate (TSDB_FILE_HEAD_SIZE + compIdxSize * maxTables) 0) ∧
    diskLookup (tsdbCreateFGroup pFileH d dataDir fid maxTables).2.2
        (tsdbGetFileName dataDir fid ".data") =
      some (List.replicate TSDB_FILE_HEAD_SIZE 0) ∧
    diskLookup (tsdbCreateFGroup pFileH d dataDir fid maxTables).2.2
        (tsdbGetFileName dataDir fid ".last") =
      some (List.replicate TSDB_FILE_HEAD_SIZE 0) ∧
    tsdbLoadCompIdx (tsdbCreateFGroup pFileH d dataDir fid maxTables).2.2
        { fileId := fid,
          headF := { fname := tsdbGetFileName dataDir fid ".head",
                     size := compIdxSize * maxTables + TSDB_FILE_HEAD_SIZE },
          dataF := { fname := tsdbGetFileName dataDir fid ".data",
                     size := TSDB_FILE_HEAD_SIZE },
          lastF := { fname := tsdbGetFileName dataDir fid ".last",
                     size := TSDB_FILE_HEAD_SIZE } } maxTables =
      some (List.replicate maxTables zeroCompIdx) ∧
    ∀ idx ∈ List.replicate maxTables zeroCompIdx, idx.offset = 0 := by
  rw [tsdbCreateFGroup_fresh pFileH d dataDir fid maxTables hcap habs hh hd hl hne1 hne2 hne3]
  have hlookHead : diskLookup (diskWrite (diskWrite (diskWrite d
      (tsdbGetFileName dataDir fid ".head")
      (List.replicate (TSDB_FILE_HEAD_SIZE + compIdxSize * maxTables) 0))
      (tsdbGetFileName dataDir fid ".data") (List.replicate TSDB_FILE_HEAD_SIZE 0))
      (tsdbGetFileName dataDir fid ".last") (List.replicate TSDB_FILE_HEAD_SIZE 0))
      (tsdbGetFileName dataDir fid ".head") =
      some (List.replicate (TSDB_FILE_HEAD_SIZE + compIdxSize * maxTables) 0) := by
    rw [diskLookup_diskWrite_other _ _ _ _ (Ne.symm hne2),
      diskLookup_diskWrite_other _ _ _ _ (Ne.symm hne1)]
    exact diskLookup_diskWrite_self _ _ _
  refine ⟨rfl, hlookHead, ?_, ?_, ?_, ?_⟩
  · rw [diskLookup_diskWrite_other _ _ _ _ (Ne.symm hne3)]
    exact diskLookup_diskWrite_self _ _ _
  · exact diskLookup_diskWrite_self _ _ _
  · simp only [tsdbLoadCompIdx, hlookHead]
    rw [readAt_replicate]
    have hmin : min (compIdxSize * maxTables)
        (TSDB_FILE_HEAD_SIZE + compIdxSize * maxTables - TSDB_FILE_HEAD_SIZE) =
        compIdxSize * maxTables := by omega
    rw [hmin, decodeCompIdxArr_zero]
  · intro idx hidx
    rw [List.eq_of_mem_replicate hidx]
    rfl

/-- Witness for C9 on an empty directory and empty disk with one table. -/
theorem tsdbCreateFGroup_then_loadCompIdx_witness :
    (tsdbCreateFGroup { maxFGroups := 1, fGroup := [] } [] "data" 0 1).1 = 0 ∧
    diskLookup (tsdbCreateFGroup { maxFGroups := 1, fGroup := [] } [] "data" 0 1).2.2
        (tsdbGetFileName "data" 0 ".head") =
      some (List.replicate (TSDB_FILE_HEAD_SIZE + compIdxSize * 1) 0) ∧
    diskLookup (tsdbCreateFGroup { maxFGroups := 1, fGroup := [] } [] "data" 0 1).2.2
        (tsdbGetFileName "data" 0 ".data") =
      some (List.replicate TSDB_FILE_HEAD_SIZE 0) ∧
    diskLookup (tsdbCreateFGroup { maxFGroups := 1, fGroup := [] } [] "data" 0 1).2.2
        (tsdbGetFileName "data" 0 ".last") =
      some (List.replicate TSDB_FILE_HEAD_SIZE 0) ∧
    tsdbLoadCompIdx (tsdbCreateFGroup { maxFGroups := 1, fGroup := [] } [] "data" 0 1).2.2
        { fileId := 0,
          headF := { fname := tsdbGetFileName "data" 0 ".head",
                     size := compIdxSize * 1 + TSDB_FILE_HEAD_SIZE },
          dataF := { fname := tsdbGetFileName "data" 0 ".data", size := TSDB_FILE_HEAD_SIZE },
          lastF := { fname := tsdbGetFileName "data" 0 ".last", size := TSDB_FILE_HEAD_SIZE } }
        1 =
      some (List.replicate 1 zeroCompIdx) ∧
    ∀ idx ∈ List.replicate 1 zeroCompIdx, idx.offset = 0 :=
  tsdbCreateFGroup_then_loadCompIdx { maxFGroups := 1, fGroup := [] } [] "data" 0 1
    (by decide) (by rfl) (by rfl) (by rfl) (by rfl) (by decide) (by decide) (by decide)

/-! ## Memtable and the insert path (main module) -/

def INT64_MAX : Int := 9223372036854775807
def INT64_MIN : Int := -9223372036854775808

/-- SMemTable: the per-table memtable.  The skiplist of rows is reduced to
    the ordered list of row keys; row payloads play no part in the claims. -/
structure SMemTable where
  keyFirst : Int
  keyLast : Int
  numOfPoints : Nat
  keys : List Int
deriving Repr, DecidableEq

/-- The fresh memtable tdInsertRowToTable lazily allocates with calloc:
    keyFirst is set to INT64_MAX, keyLast is set to 0, the calloc zero fill
    leaves numOfPoints 0 and the skiplist empty. -/
def emptyMemTable : SMemTable :=
  { keyFirst := INT64_MAX, keyLast := 0, numOfPoints := 0, keys := [] }

/-- Modelled from the spec: tSkipListPut (tskiplist.c is not in the
    snapshot) keeps one row per key in timestamp order; a put with an equal
    key replaces the row instead of inserting a second one. -/
def slInsert (key : Int) : List Int → List Int
  | [] => [key]
  | x :: xs =>
    if key < x then key :: x :: xs
    else if key = x then x :: xs
    else x :: slInsert key xs

/-- The body of tdInsertRowToTable acting on a present memtable: put the
    node, then raise keyLast when the key is greater, then lower keyFirst
    when the key is smaller, then refresh numOfPoints from the skiplist
    size, in source order. -/
def memPut (m : SMemTable) (key : Int) : SMemTable :=
  let keys := slInsert key m.keys
  { keyFirst := if key < m.keyFirst then key else m.keyFirst
    keyLast := if key > m.keyLast then key else m.keyLast
    numOfPoints := keys.length
    keys := keys }

/-- STable: the meta handle of one table with its active and frozen
    memtables; schema and tag data are not needed by the claims. -/
structure STable where
  uid : Int
  tid : Int
  mem : Option SMemTable
  imem : Option SMemTable
deriving Repr, DecidableEq

/-- tdInsertRowToTable: lazily create the memtable when mem is null, then
    insert the row.  The cache allocation (tsdbAllocFromCache) always
    yields a node in this model; its failure path is an unhandled TODO in
    the source. -/
def tdInsertRowToTable (pTable : STable) (key : Int) : STable :=
  let m := match pTable.mem with
    | none => emptyMemTable
    | some m => m
  { pTable with mem := some (memPut m key) }

/-- The row loop of tsdbInsertDataToTable over the keys of one submit block. -/
def insertRows (pTable : STable) (keys : List Int) : STable :=
  keys.foldl tdInsertRowToTable pTable

lemma memPut_keyFirst (m : SMemTable) (k : Int) :
    (memPut m k).keyFirst = min m.keyFirst k := by
  unfold memPut; split_ifs <;> simp <;> omega

lemma memPut_keyLast (m : SMemTable) (k : Int) :
    (memPut m k).keyLast = max m.keyLast k := by
  unfold memPut; split_ifs <;> simp <;> omega

lemma insertRows_minmax (pTable : STable) (m : SMemTable) (h : pTable.mem = some m)
    (ks : List Int) :
    ∃ m2, (insertRows pTable ks).mem = some m2 ∧
      m2.keyFirst = ks.foldl min m.keyFirst ∧ m2.keyLast = ks.foldl max m.keyLast := by
  induction ks generalizing pTable m with
  | nil => exact ⟨m, h, rfl, rfl⟩
  | cons k rest ih =>
    have hstep : (tdInsertRowToTable pTable k).mem = some (memPut m k) := by
      simp [tdInsertRowToTable, h]
    obtain ⟨m2, hm2, h1, h2⟩ := ih _ _ hstep
    refine ⟨m2, hm2, ?_, ?_⟩
    · rw [h1, memPut_keyFirst, List.foldl_cons]
    · rw [h2, memPut_keyLast, List.foldl_cons]

lemma foldl_min_le_init (l : List Int) (a : Int) : l.foldl min a ≤ a := by
  induction l generalizing a with
  | nil => simp
  | cons x xs ih => simpa using le_trans (ih (min a x)) (min_le_left a x)

lemma foldl_min_le_mem (l : List Int) (k : Int) (hk : k ∈ l) (a : Int) :
    l.foldl min a ≤ k := by
  induction l generalizing a with
  | nil => cases hk
  | cons x xs ih =>
    rcases List.mem_cons.mp hk with rfl | hk2
    · exact le_trans (foldl_min_le_init xs (min a k)) (min_le_right a k)
    · exact ih hk2 (min a x)

lemma foldl_min_mem (l : List Int) (a : Int) : l.foldl min a = a ∨ l.foldl min a ∈ l := by
  induction l generalizing a with
  | nil => left; rfl
  | cons x xs ih =>
    rcases ih (min a x) with h | h
    · rcases min_cases a x with ⟨h2, _⟩ | ⟨h2, _⟩
      · left; rw [List.foldl_cons, h, h2]
      · right; rw [List.foldl_cons, h, h2]; exact List.mem_cons_self x xs
    · right; exact List.mem_cons_of_mem x (by rw [List.foldl_cons]; exact h)

lemma foldl_max_ge_init (l : List Int) (a : Int) : a ≤ l.foldl max a := by
  induction l generalizing a with
  | nil => simp
  | cons x xs ih => simpa using le_trans (le_max_left a x) (ih (max a x))

lemma foldl_max_ge_mem (l : List Int) (k : Int) (hk : k ∈ l) (a : Int) :
    k ≤ l.foldl max a := by
  induction l generalizing a with
  | nil => cases hk
  | cons x xs ih =>
    rcases List.mem_cons.mp hk with rfl | hk2
    · exact le_trans (le_max_right a k) (foldl_max_ge_init xs (max a k))
    · exact ih hk2 (max a x)

lemma foldl_max_mem (l : List Int) (a : Int) : l.foldl max a = a ∨ l.foldl max a ∈ l := by
  induction l generalizing a with
  | nil => left; rfl
  | cons x xs ih =>
    rcases ih (max a x) with h | h
    · rcases max_cases a x with ⟨h2, _⟩ | ⟨h2, _⟩
      · left; rw [List.foldl_cons, h, h2]
      · right; rw [List.foldl_cons, h, h2]; exact List.mem_cons_self x xs
    · right; exact List.mem_cons_of_mem x (by rw [List.foldl_cons]; exact h)

def demoTable : STable := { uid := 42, tid := 0, mem := none, imem := none }

/-- C5 counterexample: inserting the single timestamp -1 into a fresh
    memtable leaves keyLast at its initial value 0, not at the maximum
    inserted timestamp -1, because the source initializes keyLast to 0
    rather than INT64_MIN. -/
theorem tdInsertRowToTable_minmax_cex :
    (insertRows demoTable [(-1)]).mem.map SMemTable.keyLast = some 0 ∧
    (insertRows demoTable [(-1)]).mem.map SMemTable.keyLast ≠ some (-1) := by
  decide

/-- C5 amended: over the full signed 64-bit TSKEY domain, after a non-empty
    sequence of inserts into one fresh table keyFirst is the least inserted
    timestamp, while keyLast is the greatest element of the inserted
    timestamps together with 0 (so it is the maximum inserted timestamp
    whenever some inserted timestamp is nonnegative, and 0 when all are
    negative), and keyFirst is at most keyLast. -/
theorem tdInsertRowToTable_minmax (u t : Int) (ks : List Int) (hne : ks ≠ [])
    (hdom : ∀ k ∈ ks, INT64_MIN ≤ k ∧ k ≤ INT64_MAX) :
    ∃ m : SMemTable,
      (insertRows { uid := u, tid := t, mem := none, imem := none } ks).mem = some m ∧
      (m.keyFirst ∈ ks ∧ ∀ k ∈ ks, m.keyFirst ≤ k) ∧
      (m.keyLast ∈ (0 :: ks) ∧ ∀ k ∈ (0 :: ks), k ≤ m.keyLast) ∧
      m.keyFirst ≤ m.keyLast := by
  match ks, hne with
  | k :: rest, _ =>
    have hstep : (tdInsertRowToTable { uid := u, tid := t, mem := none, imem := none } k).mem =
        some (memPut emptyMemTable k) := rfl
    obtain ⟨m2, hm2, h1, h2⟩ := insertRows_minmax _ _ hstep rest
    have hkmax : k ≤ INT64_MAX := (hdom k (List.mem_cons_self k rest)).2
    have hfirst : (memPut emptyMemTable k).keyFirst = k := by
      rw [memPut_keyFirst]
      show min INT64_MAX k = k
      exact min_eq_right hkmax
    have hlast : (memPut emptyMemTable k).keyLast = max 0 k := by
      rw [memPut_keyLast]; rfl
    rw [hfirst] at h1
    rw [hlast] at h2
    have hfmem : m2.keyFirst ∈ k :: rest := by
      rcases foldl_min_mem rest k with h | h
      · rw [h1, h]; exact List.mem_cons_self k rest
      · rw [h1]; exact List.mem_cons_of_mem k h
    have hfleast : ∀ j ∈ k :: rest, m2.keyFirst ≤ j := by
      intro j hj
      rcases List.mem_cons.mp hj with rfl | hj2
      · rw [h1]; exact foldl_min_le_init rest j
      · rw [h1]; exact foldl_min_le_mem rest j hj2 k
    have hlmem : m2.keyLast ∈ (0 :: k :: rest) := by
      rcases foldl_max_mem rest (max 0 k) with h | h
      · rcases max_cases 0 k with ⟨h2x, _⟩ | ⟨h2x, _⟩
        · rw [h2, h, h2x]; exact List.mem_cons_self 0 (k :: rest)
        · rw [h2, h, h2x]
          exact List.mem_cons_of_mem 0 (List.mem_cons_self k rest)
      · rw [h2]
        exact List.mem_cons_of_mem 0 (List.mem_cons_of_mem k h)
    have hlgreatest : ∀ j ∈ (0 :: k :: rest), j ≤ m2.keyLast := by
      intro j hj
      rcases List.mem_cons.mp hj with rfl | hj2
      · rw [h2]; exact le_trans (le_max_left 0 k) (foldl_max_ge_init rest (max 0 k))
      · rcases List.mem_cons.mp hj2 with rfl | hj3
        · rw [h2]; exact le_trans (le_max_right 0 j) (foldl_max_ge_init rest (max 0 j))
        · rw [h2]; exact foldl_max_ge_mem rest j hj3 (max 0 k)
    exact ⟨m2, hm2, ⟨hfmem, hfleast⟩, ⟨hlmem, hlgreatest⟩,
      hlgreatest m2.keyFirst (List.mem_cons_of_mem 0 hfmem)⟩

/-- Witness for C5 amended on the key sequence 3, -2, 5. -/
theorem tdInsertRowToTable_minmax_witness :
    ∃ m : SMemTable,
      (insertRows { uid := 42, tid := 0, mem := none, imem := none } [3, -2, 5]).mem = some m ∧
      (m.keyFirst ∈ [3, -2, 5] ∧ ∀ k ∈ [3, -2, 5], m.keyFirst ≤ k) ∧
      (m.keyLast ∈ (0 :: [3, -2, 5]) ∧ ∀ k ∈ (0 :: [3, -2, 5]), k ≤ m.keyLast) ∧
      m.keyFirst ≤ m.keyLast :=
  tdInsertRowToTable_minmax 42 0 [3, -2, 5] (by decide) (by decide)

/-! ## Repository state, commit trigger and commit task (main module)

    The repository's mutex-protected critical sections are modelled as
    single atomic transitions on the repository state, which is what
    holding the one repository mutex for the whole section guarantees. -/

def TSDB_REPO_STATE_ACTIVE : Int := 0
def TSDB_REPO_STATE_CLOSED : Int := 1
def TSDB_REPO_STATE_CONFIGURING : Int := 2

/-- One cache generation: its key range and its allocation block list,
    the latter abstracted to a block count. -/
structure SCacheMem where
  keyFirst : Int
  keyLast : Int
  blocks : Nat
deriving Repr, DecidableEq

/-- STsdbCache: active generation mem, frozen generation imem, the block
    currently being filled, and the free pool that reclaimed block lists
    are moved back to. -/
structure STsdbCache where
  mem : Option SCacheMem
  imem : Option SCacheMem
  curBlock : Option Nat
  poolBlocks : Nat
deriving Repr, DecidableEq

/-- STsdbRepo: the table array of the meta handle (length maxTables), the
    cache, the commit-in-flight flag, the repository state and a count of
    commit tasks spawned by pthread_create. -/
structure STsdbRepo where
  tables : List (Option STable)
  cache : STsdbCache
  commit : Bool
  state : Int
  spawnedCommits : Nat
deriving Repr, DecidableEq

/-- tsdbTriggerCommit: under the repository mutex, reject with -1 when a
    commit is in flight; otherwise set the commit flag, move every non-null
    table mem to imem, move cache mem to imem clearing mem and curBlock,
    and spawn the commit task.  The whole locked section is one transition. -/
def tsdbTriggerCommit (pRepo : STsdbRepo) : Int × STsdbRepo :=
  if pRepo.commit then (-1, pRepo)
  else
    (0, { pRepo with
      commit := true
      tables := pRepo.tables.map fun ot =>
        match ot with
        | none => none
        | some pTable =>
          if pTable.mem.isSome then some { pTable with imem := pTable.mem, mem := none }
          else some pTable
      cache := { pRepo.cache with
        imem := pRepo.cache.mem
        mem := none
        curBlock := none }
      spawnedCommits := pRepo.spawnedCommits + 1 })

/-- tsdbCommitData, the background commit task.  When the frozen cache
    generation is null it returns at once, and the source does NOT clear
    the commit flag on that path.  Otherwise the per-fid file commits run
    (they touch only files, never the repository record), and the final
    mutex-held section moves the frozen block list to the pool, clears the
    frozen generations and clears the commit flag.  The mid-function malloc
    failure returns, both unhandled TODO paths in the source, are not
    modelled. -/
def tsdbCommitData (pRepo : STsdbRepo) : STsdbRepo :=
  match pRepo.cache.imem with
  | none => pRepo
  | some im =>
    { pRepo with
      cache := { pRepo.cache with
        imem := none
        poolBlocks := pRepo.cache.poolBlocks + im.blocks }
      commit := false
      tables := pRepo.tables.map fun ot => ot.map fun pTable => { pTable with imem := none } }

/-- tsdbCloseRepo: sets the state to CLOSED (and in C frees the meta and
    cache handles, which the model keeps so later calls can be examined;
    in C such calls would dereference freed memory). -/
def tsdbCloseRepo (pRepo : STsdbRepo) : Int × STsdbRepo :=
  (0, { pRepo with state := TSDB_REPO_STATE_CLOSED })

/-- Modelled from the spec: tsdbIsValidTableToInsert (tsdbMeta.c is not in
    the snapshot) returns the table handle exactly when the tid is in
    range, the slot is occupied and the uid matches; it never consults the
    repository state, which is not reachable from the meta handle it is
    given. -/
def tsdbIsValidTableToInsert (tables : List (Option STable)) (uid tid : Int) :
    Option STable :=
  if tid < 0 then none
  else
    match tables.getD tid.toNat none with
    | none => none
    | some pTable => if pTable.uid = uid then some pTable else none

/-- One submit block of the submit message: target table identity and the
    keys of its rows. -/
structure SSubmitBlk where
  uid : Int
  tid : Int
  rows : List Int
deriving Repr, DecidableEq

/-- tsdbInsertDataToTable: validate the block target against the meta, then
    insert each row of the block into the table's active memtable. -/
def tsdbInsertDataToTable (pRepo : STsdbRepo) (pBlock : SSubmitBlk) : Int × STsdbRepo :=
  match tsdbIsValidTableToInsert pRepo.tables pBlock.uid pBlock.tid with
  | none => (-1, pRepo)
  | some pTable =>
    (0, { pRepo with
      tables := pRepo.tables.set pBlock.tid.toNat (some (insertRows pTable pBlock.rows)) })

/-- tsdbInsertData: iterate the submit blocks of the message (the
    byte-frame iterator is abstracted to the list of blocks it yields) and
    insert each one, stopping with -1 on the first failure.  The function
    performs no repository state check whatsoever. -/
def tsdbInsertData (pRepo : STsdbRepo) : List SSubmitBlk → Int × STsdbRepo
  | [] => (0, pRepo)
  | pBlock :: rest =>
    let r := tsdbInsertDataToTable pRepo pBlock
    if r.1 < 0 then (-1, r.2) else tsdbInsertData r.2 rest

/-! ### C1: the freeze performed by a successful tsdbTriggerCommit -/

/-- C1: when no commit is in flight, tsdbTriggerCommit returns 0 and, in
    the single mutex-held step, every table whose active memtable was
    non-null has that memtable moved to imem with mem cleared, the cache's
    active generation becomes the frozen generation with the active
    generation and current block cleared, and the commit flag is set. -/
theorem tsdbTriggerCommit_freeze (pRepo : STsdbRepo) (h : pRepo.commit = false) :
    (tsdbTriggerCommit pRepo).1 = 0 ∧
    (tsdbTriggerCommit pRepo).2.commit = true ∧
    (tsdbTriggerCommit pRepo).2.cache.imem = pRepo.cache.mem ∧
    (tsdbTriggerCommit pRepo).2.cache.mem = none ∧
    (tsdbTriggerCommit pRepo).2.cache.curBlock = none ∧
    ∀ i pTable, pRepo.tables.get? i = some (some pTable) → pTable.mem.isSome →
      (tsdbTriggerCommit pRepo).2.tables.get? i =
        some (some { pTable with imem := pTable.mem, mem := none }) := by
  refine ⟨by simp [tsdbTriggerCommit, h], by simp [tsdbTriggerCommit, h],
    by simp [tsdbTriggerCommit, h], by simp [tsdbTriggerCommit, h],
    by simp [tsdbTriggerCommit, h], ?_⟩
  intro i pTable hi hmem
  rw [List.get?_eq_getElem?] at hi
  simp [tsdbTriggerCommit, h, hi, hmem]

def demoMemTable : SMemTable := { keyFirst := 5, keyLast := 9, numOfPoints := 2, keys := [5, 9] }

def demoCacheMem : SCacheMem := { keyFirst := 5, keyLast := 9, blocks := 1 }

def demoRepoActive : STsdbRepo :=
  { tables := [some { uid := 42, tid := 0, mem := some demoMemTable, imem := none }, none],
    cache := { mem := some demoCacheMem, imem := none, curBlock := some 0, poolBlocks := 0 },
    commit := false, state := TSDB_REPO_STATE_ACTIVE, spawnedCommits := 0 }

/-- Witness for C1 on a two-slot repository with one occupied table. -/
theorem tsdbTriggerCommit_freeze_witness :
    (tsdbTriggerCommit demoRepoActive).1 = 0 ∧
    (tsdbTriggerCommit demoRepoActive).2.commit = true ∧
    (tsdbTriggerCommit demoRepoActive).2.cache.imem = demoRepoActive.cache.mem ∧
    (tsdbTriggerCommit demoRepoActive).2.cache.mem = none ∧
    (tsdbTriggerCommit demoRepoActive).2.cache.curBlock = none ∧
    ∀ i pTable, demoRepoActive.tables.get? i = some (some pTable) → pTable.mem.isSome →
      (tsdbTriggerCommit demoRepoActive).2.tables.get? i =
        some (some { pTable with imem := pTable.mem, mem := none }) :=
  tsdbTriggerCommit_freeze demoRepoActive rfl

/-! ### C3: a second trigger while a commit is in flight -/

/-- C3: with a commit in flight, tsdbTriggerCommit returns -1 and the
    repository is returned unchanged: no table memtable moves, the cache
    generations stay, the commit flag stays set, and the spawned-task
    count does not grow. -/
theorem tsdbTriggerCommit_rejects_inflight (pRepo : STsdbRepo) (h : pRepo.commit = true) :
    tsdbTriggerCommit pRepo = (-1, pRepo) := by
  simp [tsdbTriggerCommit, h]

/-- Witness for C3 on a repository whose commit flag is set. -/
theorem tsdbTriggerCommit_rejects_inflight_witness :
    tsdbTriggerCommit { demoRepoActive with commit := true } =
      (-1, { demoRepoActive with commit := true }) :=
  tsdbTriggerCommit_rejects_inflight { demoRepoActive with commit := true } rfl

/-! ### C2: the commit task must clear the commit flag on every exit path -/

def demoRepoEmptyActive : STsdbRepo :=
  { tables := [some { uid := 42, tid := 0, mem := none, imem := none }],
    cache := { mem := none, imem := none, curBlock := none, poolBlocks := 0 },
    commit := false, state := TSDB_REPO_STATE_ACTIVE, spawnedCommits := 0 }

/-- C2 refutation at the failing input: on a repository with nothing in the
    active cache generation, tsdbTriggerCommit succeeds and freezes a null
    generation; the spawned tsdbCommitData then returns through its early
    imem-null exit without clearing the commit flag, so the flag stays set
    and every subsequent tsdbTriggerCommit is rejected with -1. -/
theorem tsdbCommitData_leaves_commit_set :
    (tsdbTriggerCommit demoRepoEmptyActive).1 = 0 ∧
    (tsdbTriggerCommit demoRepoEmptyActive).2.cache.imem = none ∧
    (tsdbCommitData (tsdbTriggerCommit demoRepoEmptyActive).2).commit = true ∧
    (tsdbTriggerCommit (tsdbCommitData (tsdbTriggerCommit demoRepoEmptyActive).2)).1 = -1 := by
  decide

/-! ### C4: insert against a repository that is not ACTIVE -/

def demoRepoClosed : STsdbRepo := (tsdbCloseRepo demoRepoEmptyActive).2

/-- C4 refutation at the failing input: after tsdbCloseRepo has set the
    state to CLOSED, tsdbInsertData still performs no state check: a submit
    message for the registered table returns 0 and inserts its row into the
    table's memtable instead of rejecting with a negative error. -/
theorem tsdbInsertData_ignores_closed_state :
    demoRepoClosed.state = TSDB_REPO_STATE_CLOSED ∧
    TSDB_REPO_STATE_CLOSED ≠ TSDB_REPO_STATE_ACTIVE ∧
    (tsdbInsertData demoRepoClosed [{ uid := 42, tid := 0, rows := [100] }]).1 = 0 ∧
    ((tsdbInsertData demoRepoClosed [{ uid := 42, tid := 0, rows := [100] }]).2.tables.getD 0
        none).map (fun pTable => pTable.mem.map SMemTable.numOfPoints) =
      some (some 1) := by
  decide

end Tsdb
